import Mathlib

/-!
Shallow embedding of `src/main.py` of the quiz-to-pptx scraper.

The source scrapes a quiz page, parses per-record HTML fragments into
`QuizRecord`s, sorts them per part (Mystery-Box themes last, otherwise by
codepoint order), and generates one slide deck per part plus a summary.

Modelling conventions:
  * a record fragment is a flat sequence of inline nodes (plain text,
    bold span, italic span, line break), the shape BeautifulSoup sees for
    this page; HTML entity escaping inside text content is not modelled;
  * Python floats are never computed with: the claims only depend on
    whether `float()` succeeds, so `xT` and `xP` keep their raw matched
    digit strings and `pyFloatOk` decides whether `float()` would raise;
  * an uncaught Python exception (NameError, ValueError, AttributeError,
    KeyError, UnboundLocalError) is modelled as `Except.error ()`;
  * Python string comparison is codepoint-lexicographic, implemented here
    over `String.toList` (`chLe`).
-/

namespace QuizScraper

/-- Python whitespace class (`\s`, `str.strip`), restricted to ASCII. -/
def pySpace (c : Char) : Bool :=
  c = ' ' || c = '\t' || c = '\n' || c = '\r' || c = '\x0b' || c = '\x0c'

/-- Python `str.strip()`: drop leading and trailing whitespace. -/
def pyStrip (s : String) : String :=
  String.mk (((s.toList.dropWhile pySpace).reverse.dropWhile pySpace).reverse)

/-- Codepoint-lexicographic order on char lists: Python string `<=`. -/
def chLe : List Char → List Char → Bool
  | [], _ => true
  | _ :: _, [] => false
  | a :: as, b :: bs =>
    if a.toNat < b.toNat then true
    else if b.toNat < a.toNat then false
    else chLe as bs

/-- Python `a <= b` on strings (codepoint order). -/
def pyStrLe (a b : String) : Bool := chLe a.toList b.toList

/-- Python `s.startswith(pre)`. -/
def pyStartsWith (s pre : String) : Bool := pre.toList.isPrefixOf s.toList

/-- Chars of `l` up to (excluding) the first occurrence of `sep`:
Python `s.split(sep)[0]`. -/
def takeBefore (sep : List Char) : List Char → List Char
  | [] => []
  | c :: cs => if sep.isPrefixOf (c :: cs) then [] else c :: takeBefore sep cs

/-- One top-level node of a record fragment as BeautifulSoup parses it:
plain text, a bold span, an italic span, or a `<br/>` line break. -/
inductive Node where
  | text (s : String)
  | b (s : String)
  | i (s : String)
  | br
deriving DecidableEq, Repr

/-- Serialisation of a node back to markup, as `str(soup)` renders it
(entity escaping inside text content is not modelled). -/
def Node.render : Node → String
  | .text s => s
  | .b s => "<b>" ++ s ++ "</b>"
  | .i s => "<i>" ++ s ++ "</i>"
  | .br => "<br/>"

/-- Rendering of a whole segment (concatenation of its nodes). -/
def renderSeg (seg : List Node) : String :=
  seg.foldl (fun acc n => acc ++ n.render) ""

/-- Line 82: `re.split(r"<br\s*/>", str(soup_text))` - split the fragment at
its `<br/>` nodes; `k` breaks give `k + 1` segments, empties included. -/
def splitSegs : List Node → List (List Node)
  | [] => [[]]
  | .br :: rest => [] :: splitSegs rest
  | n :: rest =>
    match splitSegs rest with
    | s :: ss => (n :: s) :: ss
    | [] => [[n]]

/-- `soup.find("b")`: text of the first bold span, if any. -/
def findB : List Node → Option String
  | [] => none
  | .b s :: _ => some s
  | _ :: rest => findB rest

/-- `soup.find("i")`: text of the first italic span, if any. -/
def findI : List Node → Option String
  | [] => none
  | .i s :: _ => some s
  | _ :: rest => findI rest

/-- Chars matched by the regex class `[\d.]`. -/
def digDot (c : Char) : Bool := c.isDigit || c = '.'

/-- Consume the literal chars of `tok`, or fail. -/
def expectTok (tok : String) (l : List Char) : Option (List Char) :=
  if tok.toList.isPrefixOf l then some (l.drop tok.toList.length) else none

/-- Consume a maximal nonempty `[\d.]+` run. -/
def takeNum (l : List Char) : Option (List Char × List Char) :=
  let num := l.takeWhile digDot
  if num.isEmpty then none else some (num, l.drop num.length)

/-- Match `\s*\(xT\s*=\s*([\d.]+),\s*xP\s*=\s*([\d.]+)\)` at the head of `l`,
returning the two captured numeric strings.  Every quantified piece is
followed by a literal outside its class, so the regex backtracking is
deterministic and this greedy scan is exact. -/
def matchXtXp (l : List Char) : Option (List Char × List Char) := do
  let l := l.dropWhile pySpace
  let l ← expectTok "(xT" l
  let l := l.dropWhile pySpace
  let l ← expectTok "=" l
  let l := l.dropWhile pySpace
  let (g2, l) ← takeNum l
  let l ← expectTok "," l
  let l := l.dropWhile pySpace
  let l ← expectTok "xP" l
  let l := l.dropWhile pySpace
  let l ← expectTok "=" l
  let l := l.dropWhile pySpace
  let (g3, l) ← takeNum l
  let _ ← expectTok ")" l
  return (g2, g3)

/-- Scan for the non-greedy group 1 of the line-98 pattern
`^(.*?)\s*\(xT\s*=\s*([\d.]+),\s*xP\s*=\s*([\d.]+)\)`: try the shortest
prefix first; `.` does not cross a newline and, without MULTILINE, `^` only
matches at the very start, so the scan stops at a newline. -/
def matchThemeAux : List Char → List Char → Option (List Char × List Char × List Char)
  | acc, l =>
    match matchXtXp l with
    | some (g2, g3) => some (acc.reverse, g2, g3)
    | none =>
      match l with
      | [] => none
      | c :: cs => if c = '\n' then none else matchThemeAux (c :: acc) cs

/-- Lines 98-99: `pattern.search(theme_xt_xp)` returning the three groups. -/
def matchTheme (s : String) : Option (List Char × List Char × List Char) :=
  matchThemeAux [] s.toList

/-- Line 103: `re.sub(r"^Parte\s\d\s", "", theme)`. -/
def stripParte (s : String) : String :=
  match s.toList with
  | 'P' :: 'a' :: 'r' :: 't' :: 'e' :: c1 :: c2 :: c3 :: rest =>
    if pySpace c1 && c2.isDigit && pySpace c3 then String.mk rest else s
  | _ => s

/-- Whether Python `float(s)` succeeds on a nonempty string over `[\d.]`:
it needs at least one digit and at most one dot (`float("1..2")` and
`float(".")` raise ValueError). -/
def pyFloatOk (l : List Char) : Bool :=
  l.any Char.isDigit && decide (l.countP (fun c => c == '.') ≤ 1)

/-- One extracted question/answer record - the dict built at lines 116-126.
`xT` and `xP` keep the raw matched digit strings (see module comment). -/
structure QuizRecord where
  theme : String
  xT : String
  xP : String
  question : String
  answer : String
  player : String
  guessed : Bool
deriving DecidableEq, Repr

/-- The loop-local bindings `player_name` (line 90) and `points` (line 96)
of `extract_quiz_data`, which by Python function scoping persist across
loop iterations; `none` means never yet assigned (reading raises
NameError). -/
structure RowEnv where
  player : Option String
  points : Option String
deriving DecidableEq, Repr

/-- Outcome for one raw fragment: a record is appended, the fragment is
skipped by `continue`, or an uncaught exception is raised. -/
inductive RowResult where
  | record (r : QuizRecord)
  | discard
  | crash
deriving DecidableEq, Repr

/-- Lines 110-112: `soup_text.find("i")` - text of the first italic span,
else the empty string.  (The line-108 replacement of `<br>` nodes by
spaces does not affect which spans exist.) -/
def extractQuestion (row : List Node) : String :=
  match findI row with
  | some s => s
  | none => ""

/-- Lines 113-115: `find("b", string="Resposta")`, then
`.find_next("i").get_text()`.  `.error` models the AttributeError raised
when the Resposta span exists but no italic span follows it. -/
def extractAnswer : List Node → Except Unit String
  | [] => .ok ""
  | .b s :: rest =>
    if s = "Resposta" then
      match findI rest with
      | some t => .ok t
      | none => .error ()
    else extractAnswer rest
  | _ :: rest => extractAnswer rest

/-- Lines 80-126: processing of one raw fragment, threading the loop-local
bindings `player_name` and `points`. -/
def processRow (env : RowEnv) (row : List Node) : RowEnv × RowResult :=
  match splitSegs row with
  | p0 :: p1 :: ps =>
    -- lines 85-90: player line (first segment)
    let env1 := match findB p0 with
      | some txt =>
        { env with player := some (String.mk (takeBefore " - ".toList (pyStrip txt).toList)) }
      | none => env
    -- lines 91-96: points line (last segment)
    let env2 := match findB ((p0 :: p1 :: ps).getLast?.getD []) with
      | some txt => { env1 with points := some (pyStrip txt) }
      | none => env1
    -- lines 97-107: theme line (second segment)
    match matchTheme (pyStrip (renderSeg p1)) with
    | none => (env2, .discard)
    | some (g1, g2, g3) =>
      let theme := pyStrip (stripParte (pyStrip (String.mk g1)))
      if pyFloatOk g2 && pyFloatOk g3 then
        match extractAnswer row with
        | .error () => (env2, .crash)
        | .ok answer =>
          match env2.player, env2.points with
          | some player, some points =>
            (env2, .record { theme := theme, xT := String.mk g2, xP := String.mk g3,
                             question := extractQuestion row, answer := answer,
                             player := player, guessed := points == "2" })
          | _, _ => (env2, .crash)
      else (env2, .crash)
  | _ => (env, .discard)

/-- Lines 80-126: the inner `for row in part["text"]` loop; a `.crash`
aborts the whole extraction (the exception is uncaught). -/
def processRows (env : RowEnv) : List (List Node) → Except Unit (RowEnv × List QuizRecord)
  | [] => .ok (env, [])
  | row :: rest =>
    match processRow env row with
    | (_, .crash) => .error ()
    | (env1, .discard) => processRows env1 rest
    | (env1, .record r) =>
      (processRows env1 rest).map (fun p => (p.1, r :: p.2))

/-- One element of the selected payload's `x.data` collection:
`text` is its `"text"` key (a list of raw record fragments), absent when
the key is missing. -/
structure PartPayload where
  text : Option (List (List Node))
deriving DecidableEq, Repr

/-- Lines 76-127: the outer `for part in quiz_data` loop.  A part without a
`"text"` key is skipped entirely (the `continue` at line 79 also skips the
`append` at line 127). -/
def processParts (env : RowEnv) : List PartPayload → Except Unit (RowEnv × List (List QuizRecord))
  | [] => .ok (env, [])
  | part :: rest =>
    match part.text with
    | none => processParts env rest
    | some rows =>
      match processRows env rows with
      | .error () => .error ()
      | .ok (env1, recs) =>
        (processParts env1 rest).map (fun p => (p.1, recs :: p.2))

/-- The relevant projections of one embedded JSON payload:
Python truthiness of the decoded value, the `["x"]["layout"]["title"]["text"]`
lookup, and the `["x"]["data"]` lookup (each `none` when a key is missing). -/
structure Payload where
  falsy : Bool
  title : Option String
  data : Option (List PartPayload)
deriving DecidableEq, Repr

/-- One `div.level3` container of the page: `script` is `none` when it has
no `application/json` script tag, `some none` when the tag's content fails
`json.loads`, and `some (some p)` when it decodes to payload `p`. -/
structure Div where
  script : Option (Option Payload)
deriving DecidableEq, Repr

/-- Contiguous-substring test on char lists: Python `needle in hay`. -/
def chContains (needle : List Char) : List Char → Bool
  | [] => needle.isEmpty
  | c :: cs => needle.isPrefixOf (c :: cs) || chContains needle cs

/-- Line 57: `"José Figueiras" in title`. -/
def hasMarker (t : String) : Bool :=
  chContains "José Figueiras".toList t.toList

/-- Lines 44-60: the `for div_container in soup.find_all(...)` loop of
`find_jf_game`, threading the last value bound to `whole_json`.  Falling
off the loop executes `return whole_json`, which raises UnboundLocalError
(`.error`) when no payload was ever successfully decoded. -/
def findJfAux : List Div → Option Payload → Except Unit Payload
  | [], none => .error ()
  | [], some last => .ok last
  | d :: rest, last =>
    match d.script with
    | none => findJfAux rest last
    | some none => findJfAux rest last
    | some (some p) =>
      match p.title with
      | none => findJfAux rest (some p)
      | some t => if hasMarker t then .ok p else findJfAux rest (some p)

/-- Lines 44-60: `find_jf_game(soup)`. -/
def find_jf_game (divs : List Div) : Except Unit Payload :=
  findJfAux divs none

/-- Lines 63-128: `extract_quiz_data(soup)`.  The `if not whole_json`
guard returns `[]` for a falsy payload; a missing `["x"]["data"]` key is
caught (line 71) and also returns `[]`; an exception escaping
`find_jf_game` or the row loop propagates. -/
def extract_quiz_data (divs : List Div) : Except Unit (List (List QuizRecord)) :=
  match find_jf_game divs with
  | .error () => .error ()
  | .ok payload =>
    if payload.falsy then .ok []
    else
      match payload.data with
      | none => .ok []
      | some parts => (processParts ⟨none, none⟩ parts).map (fun p => p.2)

/-- Spec-side helper: the payloads that successfully decoded, in page
order (regardless of whether they carry a title). -/
def parsedPayloads (divs : List Div) : List Payload :=
  divs.filterMap (fun d => d.script.bind id)

/-- Spec-side helper: the first decoded payload whose title contains the
host marker. -/
def firstMarkerMatch (divs : List Div) : Option Payload :=
  (parsedPayloads divs).find? (fun p =>
    match p.title with
    | some t => hasMarker t
    | none => false)

/-- The sort key comparison of lines 134 and 148: Python tuple order on
`(theme.startswith("Mystery Box"), theme)` with `False < True` and
codepoint order on the strings. -/
def themeLe (a b : String) : Bool :=
  (!(pyStartsWith a "Mystery Box") && pyStartsWith b "Mystery Box")
  || (pyStartsWith a "Mystery Box" == pyStartsWith b "Mystery Box" && pyStrLe a b)

/-- Line 134: `part.sort(key=lambda x: (x["theme"].startswith("Mystery Box"),
x["theme"]))` - Python `list.sort` is a stable ascending sort, embedded as
the (stable) `List.insertionSort`. -/
def sortPart (part : List QuizRecord) : List QuizRecord :=
  part.insertionSort (fun a b => themeLe a.theme b.theme = true)

/-- Lines 131-135: `sort_quiz_data` sorts every part. -/
def sort_quiz_data (parsed : List (List QuizRecord)) : List (List QuizRecord) :=
  parsed.map sortPart

/-- Lines 147-148: `sorted(set(row["theme"] for row in data), key=...)`.
The set is embedded as `dedup`; since distinct themes have distinct sort
keys the iteration order of the Python set does not affect the result. -/
def get_sorted_themes (data : List QuizRecord) : List String :=
  ((data.map (fun r => r.theme)).dedup).insertionSort (fun a b => themeLe a b = true)

/-- A slide as far as the claims observe it: its title text, its body
placeholder text, and the optional footer text box. -/
structure Slide where
  title : String
  body : String
  footer : Option String
deriving DecidableEq, Repr

/-- Lines 168-176: the question slide of a record. -/
def qSlide (r : QuizRecord) : Slide :=
  { title := r.theme, body := r.question, footer := none }

/-- Lines 182-194: the answer slide of a record, with the xP footer. -/
def aSlide (r : QuizRecord) : Slide :=
  { title := r.theme, body := r.answer, footer := some ("xP: " ++ r.xP) }

/-- Lines 157-160: the index slide, titled with the output file name (its
hyperlink paragraphs are modelled separately as `Deck.indexLinks`). -/
def homeSlide (out : String) : Slide :=
  { title := out, body := "", footer := none }

/-- Lines 166-194: the single pass over the records that appends a question
slide and an answer slide for each and records the first question-slide
position of every theme.  `pos` is the position the next question slide
will receive; the pass starts with `pos = 1` (the index slide is 0). -/
def buildSlides : List QuizRecord → Nat → List (String × Nat) → List Slide × List (String × Nat)
  | [], _, fq => ([], fq)
  | r :: rest, pos, fq =>
    let fq1 := if (fq.lookup r.theme).isSome then fq else fq ++ [(r.theme, pos)]
    let rec1 := buildSlides rest (pos + 2) fq1
    (qSlide r :: aSlide r :: rec1.1, rec1.2)

/-- The generated deck: the slide list; the index-slide hyperlink
paragraphs as (paragraph text, target slide position) in insertion order;
and the positions of the slides that received a home button, each
targeting slide 0. -/
structure Deck where
  slides : List Slide
  indexLinks : List (String × Nat)
  homeButtons : List Nat
deriving DecidableEq, Repr

/-- Lines 152-219: `create_ppt(data, output_file)`.  `.error` models the
KeyError at line 198 raised if a theme of the distinct-theme list had no
recorded first question slide. -/
def create_ppt (data : List QuizRecord) (output_file : String) : Except Unit Deck :=
  let themes := get_sorted_themes data
  let bs := buildSlides data 1 []
  let slides := homeSlide output_file :: bs.1
  match themes.mapM (fun t => (bs.2.lookup t).map (fun pos => (t, pos))) with
  | none => .error ()
  | some links =>
    .ok { slides := slides, indexLinks := links,
          homeButtons := (List.range slides.length).filter (fun p => p != 0) }

/-- Scanner for `digitRuns`: `acc` is the digit run in progress, reversed. -/
def digitRunsAux : List Char → List Char → List (List Char)
  | [], acc => if acc.isEmpty then [] else [acc.reverse]
  | c :: cs, acc =>
    if c.isDigit then digitRunsAux cs (c :: acc)
    else if acc.isEmpty then digitRunsAux cs [] else acc.reverse :: digitRunsAux cs []

/-- Maximal runs of digits: `re.findall(r"\d+", s)` restricted to ASCII
digits. -/
def digitRuns (l : List Char) : List (List Char) :=
  digitRunsAux l []

/-- Python `int()` on a nonempty digit string. -/
def natOfDigits (l : List Char) : Nat :=
  l.foldl (fun n c => 10 * n + (c.toNat - 48)) 0

/-- `[int(n) for n in re.findall(r"\d+", page_title)]`. -/
def findallInts (s : String) : List Nat :=
  (digitRuns s.toList).map natOfDigits

/-- Line 236: `season, week = [int(n) for n in re.findall(r"\d+", page_title)]`;
`.error` models the ValueError raised by tuple unpacking when the list
does not have exactly two elements. -/
def extractSeasonWeek (title : String) : Except Unit (Nat × Nat) :=
  match findallInts title with
  | [a, b] => .ok (a, b)
  | _ => .error ()

/-- Specification-side helper: the position of the first record with the
given theme within a record list (`none` if the theme does not occur). -/
def firstIdx (t : String) : List QuizRecord → Option Nat
  | [] => none
  | r :: rest => if r.theme == t then some 0 else (firstIdx t rest).map (fun j => j + 1)

/-!
### Concrete example inputs

Used by witnesses, counterexamples and failing-input evaluations below.
`exA1`, `exMB`, `exA3` are the round-trip example records of the
specification; the `row...` fragments exercise the Field Parser.
-/

def exA1 : QuizRecord :=
  { theme := "A", xT := "0.1", xP := "2", question := "Q1", answer := "A1",
    player := "p", guessed := false }

def exMB : QuizRecord :=
  { theme := "Mystery Box 1", xT := "0", xP := "1", question := "Q2", answer := "A2",
    player := "p", guessed := false }

def exA3 : QuizRecord :=
  { theme := "A", xT := "0.2", xP := "3", question := "Q3", answer := "A3",
    player := "p", guessed := true }

/-- The example part in raw (unsorted) order. -/
def exRaw : List QuizRecord := [exA1, exMB, exA3]

/-- The example part in sorted order. -/
def exPart : List QuizRecord := [exA1, exA3, exMB]

/-- The deck generated from `exPart` with output identifier `"out"`. -/
def exDeck : Deck :=
  { slides := [homeSlide "out", qSlide exA1, aSlide exA1, qSlide exA3, aSlide exA3,
               qSlide exMB, aSlide exMB],
    indexLinks := [("A", 1), ("Mystery Box 1", 5)],
    homeButtons := [1, 2, 3, 4, 5, 6] }

/-- A well-formed fragment: player line, theme line, question, answer, points. -/
def rowGood : List Node :=
  [.b "Alice Silva - Team X", .br, .text "Parte 1 História (xT = 0.8, xP = 2.0)", .br,
   .i "Who?", .br, .b "Resposta", .text ": ", .i "Napoleon", .br, .b "2"]

/-- A fragment whose theme line matches the pattern but whose xT text
`1..2` is rejected by `float()`. -/
def rowBadFloat : List Node :=
  [.b "Alice - T", .br, .text "Tema (xT = 1..2, xP = 3)", .br, .b "2"]

/-- A fragment whose theme line does not match the pattern. -/
def rowNoMatch : List Node := [.text "x", .br, .text "no pattern here"]

/-- A valid fragment whose points segment carries the bold text `2`. -/
def rowWith2 : List Node :=
  [.b "Alice - T", .br, .text "A (xT = 1, xP = 2)", .br, .b "2"]

/-- A valid fragment with no bold span in its last segment. -/
def rowNoPoints : List Node :=
  [.b "Alice - T", .br, .text "Tema (xT = 1, xP = 2)", .br, .i "q", .text "no points"]

/-- A valid fragment with a bold `Resposta` span not followed by any
italic span. -/
def rowResposta : List Node :=
  [.b "A - T", .br, .text "T (xT = 1, xP = 2)", .br, .b "Resposta", .br, .b "2"]

/-- A container with no embedded JSON script tag. -/
def exDivNoScript : Div := { script := none }

/-- A container whose payload's title lacks the host marker. -/
def exDivPlain : Div :=
  { script := some (some { falsy := false, title := some "nope", data := none }) }

/-- A container whose payload's title contains the host marker. -/
def exDivMarker : Div :=
  { script := some (some { falsy := false, title := some "Jogo 1 - José Figueiras",
                           data := none }) }

/-!
### Order lemmas for the sort key
-/

theorem chLe_cons_iff {x y : Char} {xs ys : List Char} :
    chLe (x :: xs) (y :: ys) = true ↔
      x.toNat < y.toNat ∨ (x.toNat = y.toNat ∧ chLe xs ys = true) := by
  simp only [chLe]
  split
  · rename_i h; simp [h]
  · rename_i h
    split
    · rename_i h2
      simp only [Bool.false_eq_true, false_iff]
      push_neg
      constructor
      · omega
      · intro hxy; omega
    · rename_i h2
      have hxy : x.toNat = y.toNat := by omega
      simp [hxy]

theorem chLe_refl (l : List Char) : chLe l l = true := by
  induction l with
  | nil => rfl
  | cons x xs ih => exact chLe_cons_iff.mpr (Or.inr ⟨rfl, ih⟩)

theorem chLe_total (a b : List Char) : chLe a b = true ∨ chLe b a = true := by
  induction a generalizing b with
  | nil => exact Or.inl rfl
  | cons x xs ih =>
    cases b with
    | nil => exact Or.inr rfl
    | cons y ys =>
      rcases Nat.lt_trichotomy x.toNat y.toNat with h | h | h
      · exact Or.inl (chLe_cons_iff.mpr (Or.inl h))
      · rcases ih ys with h2 | h2
        · exact Or.inl (chLe_cons_iff.mpr (Or.inr ⟨h, h2⟩))
        · exact Or.inr (chLe_cons_iff.mpr (Or.inr ⟨h.symm, h2⟩))
      · exact Or.inr (chLe_cons_iff.mpr (Or.inl h))

theorem chLe_trans {a b c : List Char} (hab : chLe a b = true) (hbc : chLe b c = true) :
    chLe a c = true := by
  induction a generalizing b c with
  | nil => rfl
  | cons x xs ih =>
    cases b with
    | nil => simp [chLe] at hab
    | cons y ys =>
      cases c with
      | nil => simp [chLe] at hbc
      | cons z zs =>
        rw [chLe_cons_iff] at hab hbc ⊢
        rcases hab with h1 | ⟨h1, h1c⟩ <;> rcases hbc with h2 | ⟨h2, h2c⟩
        · exact Or.inl (by omega)
        · exact Or.inl (by omega)
        · exact Or.inl (by omega)
        · exact Or.inr ⟨by omega, ih h1c h2c⟩

theorem themeLe_iff {a b : String} :
    themeLe a b = true ↔
      ((pyStartsWith a "Mystery Box" = false ∧ pyStartsWith b "Mystery Box" = true)
        ∨ (pyStartsWith a "Mystery Box" = pyStartsWith b "Mystery Box"
            ∧ chLe a.toList b.toList = true)) := by
  simp only [themeLe, pyStrLe, Bool.or_eq_true, Bool.and_eq_true, Bool.not_eq_true',
    beq_iff_eq]

theorem themeLe_refl (a : String) : themeLe a a = true :=
  themeLe_iff.mpr (Or.inr ⟨rfl, chLe_refl _⟩)

theorem themeLe_total (a b : String) : (themeLe a b || themeLe b a) = true := by
  rw [Bool.or_eq_true]
  cases hpa : pyStartsWith a "Mystery Box" <;> cases hpb : pyStartsWith b "Mystery Box"
  · rcases chLe_total a.toList b.toList with h | h
    · exact Or.inl (themeLe_iff.mpr (Or.inr ⟨hpa.trans hpb.symm, h⟩))
    · exact Or.inr (themeLe_iff.mpr (Or.inr ⟨hpb.trans hpa.symm, h⟩))
  · exact Or.inl (themeLe_iff.mpr (Or.inl ⟨hpa, hpb⟩))
  · exact Or.inr (themeLe_iff.mpr (Or.inl ⟨hpb, hpa⟩))
  · rcases chLe_total a.toList b.toList with h | h
    · exact Or.inl (themeLe_iff.mpr (Or.inr ⟨hpa.trans hpb.symm, h⟩))
    · exact Or.inr (themeLe_iff.mpr (Or.inr ⟨hpb.trans hpa.symm, h⟩))

theorem themeLe_trans {a b c : String} (h1 : themeLe a b = true) (h2 : themeLe b c = true) :
    themeLe a c = true := by
  rw [themeLe_iff] at h1 h2 ⊢
  rcases h1 with ⟨ha, hb⟩ | ⟨hab, hch1⟩ <;> rcases h2 with ⟨hb2, hc⟩ | ⟨hbc, hch2⟩
  · rw [hb] at hb2; exact absurd hb2 (by simp)
  · exact Or.inl ⟨ha, hbc ▸ hb⟩
  · exact Or.inl ⟨hab.trans hb2, hc⟩
  · exact Or.inr ⟨hab.trans hbc, chLe_trans hch1 hch2⟩

/-- Transitivity of the record comparison used by `sortPart`. -/
theorem recordLe_trans (a b c : QuizRecord) (h1 : themeLe a.theme b.theme = true)
    (h2 : themeLe b.theme c.theme = true) : themeLe a.theme c.theme = true :=
  themeLe_trans h1 h2

/-- Totality of the record comparison used by `sortPart`. -/
theorem recordLe_total (a b : QuizRecord) :
    (themeLe a.theme b.theme || themeLe b.theme a.theme) = true :=
  themeLe_total a.theme b.theme

/-- C4: `sortPart` is a stable ascending sort by the key
`(theme starts with "Mystery Box", theme)`: the result is a permutation of
the input; no non-Mystery-Box theme comes after a Mystery-Box theme;
within a bucket themes are in codepoint order; and the records of any one
theme keep their original relative order. -/
theorem sortPart_stable_sort (l : List QuizRecord) :
    (sortPart l).Perm l
    ∧ List.Pairwise (fun a b : QuizRecord =>
        pyStartsWith a.theme "Mystery Box" = true → pyStartsWith b.theme "Mystery Box" = true)
        (sortPart l)
    ∧ List.Pairwise (fun a b : QuizRecord =>
        pyStartsWith a.theme "Mystery Box" = pyStartsWith b.theme "Mystery Box" →
          chLe a.theme.toList b.theme.toList = true) (sortPart l)
    ∧ ∀ t : String,
        (sortPart l).filter (fun r => r.theme == t) = l.filter (fun r => r.theme == t) := by
  have hsorted : List.Pairwise (fun a b : QuizRecord => themeLe a.theme b.theme = true)
      (sortPart l) := by
    haveI : IsTotal QuizRecord (fun a b => themeLe a.theme b.theme = true) :=
      ⟨fun a b => (Bool.or_eq_true _ _).mp (recordLe_total a b)⟩
    haveI : IsTrans QuizRecord (fun a b => themeLe a.theme b.theme = true) :=
      ⟨fun a b c h1 h2 => recordLe_trans a b c h1 h2⟩
    exact List.sorted_insertionSort _ l
  refine ⟨List.perm_insertionSort _ l, ?_, ?_, ?_⟩
  · refine hsorted.imp ?_
    intro a b h hma
    rcases themeLe_iff.mp h with ⟨ha, hb⟩ | ⟨hab, _⟩
    · rw [ha] at hma; exact absurd hma (by simp)
    · exact hab ▸ hma
  · refine hsorted.imp ?_
    intro a b h heq
    rcases themeLe_iff.mp h with ⟨ha, hb⟩ | ⟨_, hch⟩
    · rw [ha, hb] at heq; exact absurd heq (by simp)
    · exact hch
  · intro t
    have hpair : List.Pairwise (fun a b : QuizRecord => themeLe a.theme b.theme = true)
        (l.filter (fun r => r.theme == t)) := by
      apply List.pairwise_of_forall_mem_list
      intro a ha b hb
      have ha2 : a.theme = t := by
        have := (List.mem_filter.mp ha).2
        exact beq_iff_eq.mp this
      have hb2 : b.theme = t := by
        have := (List.mem_filter.mp hb).2
        exact beq_iff_eq.mp this
      rw [ha2, hb2]
      exact themeLe_refl t
    have hsub : List.Sublist (l.filter (fun r => r.theme == t)) (sortPart l) :=
      List.sublist_insertionSort hpair l.filter_sublist
    have hperm : ((sortPart l).filter (fun r => r.theme == t)).Perm
        (l.filter (fun r => r.theme == t)) :=
      (List.perm_insertionSort _ l).filter _
    have hsub2 : List.Sublist (l.filter (fun r => r.theme == t))
        ((sortPart l).filter (fun r => r.theme == t)) := by
      have h3 := hsub.filter (fun r => r.theme == t)
      rwa [List.filter_eq_self.mpr (fun a ha => (List.mem_filter.mp ha).2)] at h3
    exact (hsub2.eq_of_length hperm.length_eq.symm).symm

/-!
### Deck builder lemmas
-/

theorem buildSlides_fst (data : List QuizRecord) (pos : Nat) (fq : List (String × Nat)) :
    (buildSlides data pos fq).1 = data.flatMap (fun r => [qSlide r, aSlide r]) := by
  induction data generalizing pos fq with
  | nil => rfl
  | cons r rest ih => simp [buildSlides, ih]

theorem lookup_buildSlides (data : List QuizRecord) (pos : Nat) (fq : List (String × Nat))
    (t : String) :
    ((buildSlides data pos fq).2).lookup t
      = (fq.lookup t).or ((firstIdx t data).map (fun j => pos + 2 * j)) := by
  induction data generalizing pos fq with
  | nil => simp [buildSlides, firstIdx]
  | cons r rest ih =>
    simp only [buildSlides]
    rw [ih]
    by_cases hrt : r.theme = t
    · subst hrt
      by_cases hfq : (fq.lookup r.theme).isSome
      · rw [if_pos hfq]
        obtain ⟨v, hv⟩ := Option.isSome_iff_exists.mp hfq
        rw [hv]
        simp [firstIdx, Option.or]
      · rw [if_neg hfq]
        have hnone : fq.lookup r.theme = none := Option.not_isSome_iff_eq_none.mp hfq
        rw [List.lookup_append, hnone]
        simp [firstIdx, List.lookup, Option.or]
    · have hbeq : (r.theme == t) = false := beq_eq_false_iff_ne.mpr hrt
      have hsingle : List.lookup t [(r.theme, pos)] = none := by
        simp [List.lookup, beq_eq_false_iff_ne.mpr (Ne.symm hrt)]
      have harith : ((fun j => pos + 2 * j) ∘ fun j => j + 1) = fun j => pos + 2 + 2 * j := by
        funext j
        simp only [Function.comp_apply]
        omega
      by_cases hfq : (fq.lookup r.theme).isSome
      · rw [if_pos hfq]
        simp [firstIdx, hbeq, Option.map_map, harith]
      · rw [if_neg hfq]
        rw [List.lookup_append, hsingle]
        simp [firstIdx, hbeq, Option.map_map, harith]

theorem lookup_firstQ (data : List QuizRecord) (t : String) :
    ((buildSlides data 1 []).2).lookup t = (firstIdx t data).map (fun j => 1 + 2 * j) := by
  rw [lookup_buildSlides]
  simp [List.lookup]

theorem firstIdx_isSome_iff (t : String) (data : List QuizRecord) :
    (firstIdx t data).isSome = true ↔ t ∈ data.map (fun r => r.theme) := by
  induction data with
  | nil => simp [firstIdx]
  | cons r rest ih =>
    by_cases h : r.theme = t
    · simp [firstIdx, h]
    · have hbeq : (r.theme == t) = false := beq_eq_false_iff_ne.mpr h
      simp [firstIdx, hbeq, ih, Ne.symm h]

theorem firstIdx_spec (t : String) (data : List QuizRecord) (j : Nat)
    (h : firstIdx t data = some j) :
    (∃ r, data[j]? = some r ∧ r.theme = t)
    ∧ ∀ k, k < j → ∀ s, data[k]? = some s → s.theme ≠ t := by
  induction data generalizing j with
  | nil => simp [firstIdx] at h
  | cons r rest ih =>
    by_cases hr : r.theme = t
    · have hbeq : (r.theme == t) = true := beq_iff_eq.mpr hr
      simp only [firstIdx, hbeq, if_true, Option.some.injEq] at h
      subst h
      exact ⟨⟨r, by simp, hr⟩, fun k hk => absurd hk (by omega)⟩
    · have hbeq : (r.theme == t) = false := beq_eq_false_iff_ne.mpr hr
      simp only [firstIdx, hbeq, Bool.false_eq_true, if_false, Option.map_eq_some'] at h
      obtain ⟨j1, hj1, rfl⟩ := h
      obtain ⟨⟨s, hs, hst⟩, hlt⟩ := ih j1 hj1
      refine ⟨⟨s, by simpa using hs, hst⟩, ?_⟩
      intro k hk u hu
      cases k with
      | zero =>
        simp only [List.getElem?_cons_zero, Option.some.injEq] at hu
        subst hu
        exact hr
      | succ k2 =>
        simp only [List.getElem?_cons_succ] at hu
        exact hlt k2 (by omega) u hu

theorem flatMapQA_getElem_even (data : List QuizRecord) (j : Nat) :
    (data.flatMap (fun r => [qSlide r, aSlide r]))[2 * j]? = (data[j]?).map qSlide := by
  induction data generalizing j with
  | nil => simp
  | cons r rest ih =>
    cases j with
    | zero => simp
    | succ j2 =>
      have h2 : 2 * (j2 + 1) = 2 * j2 + 1 + 1 := by omega
      simp only [List.flatMap_cons, List.cons_append, List.singleton_append, h2,
        List.getElem?_cons_succ]
      exact ih j2

theorem flatMapQA_getElem_odd (data : List QuizRecord) (j : Nat) :
    (data.flatMap (fun r => [qSlide r, aSlide r]))[2 * j + 1]? = (data[j]?).map aSlide := by
  induction data generalizing j with
  | nil => simp
  | cons r rest ih =>
    cases j with
    | zero => simp
    | succ j2 =>
      have h2 : 2 * (j2 + 1) + 1 = 2 * j2 + 1 + 1 + 1 := by omega
      simp only [List.flatMap_cons, List.cons_append, List.singleton_append, h2,
        List.getElem?_cons_succ]
      exact ih j2

theorem flatMapQA_length (data : List QuizRecord) :
    (data.flatMap (fun r => [qSlide r, aSlide r])).length = 2 * data.length := by
  induction data with
  | nil => rfl
  | cons r rest ih => simp [ih]; omega

theorem mem_get_sorted_themes (data : List QuizRecord) (t : String) :
    t ∈ get_sorted_themes data ↔ t ∈ data.map (fun r => r.theme) := by
  unfold get_sorted_themes
  rw [(List.perm_insertionSort _ _).mem_iff, List.mem_dedup]

theorem get_sorted_themes_nodup (data : List QuizRecord) :
    (get_sorted_themes data).Nodup :=
  ((List.perm_insertionSort _ _).nodup_iff).mpr (List.nodup_dedup _)

theorem get_sorted_themes_sorted (data : List QuizRecord) :
    List.Pairwise (fun a b => themeLe a b = true) (get_sorted_themes data) := by
  haveI : IsTotal String (fun a b => themeLe a b = true) :=
    ⟨fun a b => (Bool.or_eq_true _ _).mp (themeLe_total a b)⟩
  haveI : IsTrans String (fun a b => themeLe a b = true) :=
    ⟨fun a b c h1 h2 => themeLe_trans h1 h2⟩
  exact List.sorted_insertionSort _ _

theorem mapM_option_eq_map {α β : Type} (f : α → Option β) (g : α → β) :
    ∀ (l : List α), (∀ a ∈ l, f a = some (g a)) → l.mapM f = some (l.map g) := by
  intro l
  induction l with
  | nil => intro _; rfl
  | cons a as ih =>
    intro h
    rw [List.mapM_cons, h a (by simp), ih (fun x hx => h x (by simp [hx]))]
    rfl

theorem mapM_option_forall₂ {α β : Type} {f : α → Option β} :
    ∀ {l : List α} {bs : List β}, l.mapM f = some bs →
      List.Forall₂ (fun a b => f a = some b) l bs := by
  intro l
  induction l with
  | nil =>
    intro bs h
    simp only [List.mapM_nil] at h
    cases h
    exact List.Forall₂.nil
  | cons a as ih =>
    intro bs h
    rw [List.mapM_cons] at h
    cases hfa : f a with
    | none => rw [hfa] at h; simp at h
    | some b =>
      rw [hfa] at h
      cases hrest : as.mapM f with
      | none => rw [hrest] at h; simp at h
      | some bs2 =>
        rw [hrest] at h
        simp at h
        subst h
        exact List.Forall₂.cons hfa (ih hrest)

theorem forall₂_mem_right {α β : Type} {R : α → β → Prop} {l : List α} {bs : List β}
    (h : List.Forall₂ R l bs) : ∀ b ∈ bs, ∃ a ∈ l, R a b := by
  induction h with
  | nil => intro b hb; cases hb
  | cons hr _ ih =>
    intro b hb
    rcases List.mem_cons.mp hb with rfl | hb2
    · exact ⟨_, by simp, hr⟩
    · obtain ⟨a, ha, har⟩ := ih b hb2
      exact ⟨a, by simp [ha], har⟩

theorem create_ppt_parts {data : List QuizRecord} {out : String} {d : Deck}
    (h : create_ppt data out = .ok d) :
    d.slides = homeSlide out :: data.flatMap (fun r => [qSlide r, aSlide r])
    ∧ d.homeButtons = (List.range d.slides.length).filter (fun p => p != 0)
    ∧ (get_sorted_themes data).mapM
        (fun t => (((buildSlides data 1 []).2).lookup t).map (fun pos => (t, pos)))
        = some d.indexLinks := by
  simp only [create_ppt] at h
  split at h
  · exact absurd h (by simp)
  · rename_i links hm
    have hd : d = { slides := homeSlide out :: (buildSlides data 1 []).1,
                    indexLinks := links,
                    homeButtons :=
                      (List.range (homeSlide out :: (buildSlides data 1 []).1).length).filter
                        (fun p => p != 0) } := by
      cases h; rfl
    subst hd
    refine ⟨by rw [buildSlides_fst], rfl, by rw [hm]⟩

theorem create_ppt_ok (data : List QuizRecord) (out : String) :
    ∃ d, create_ppt data out = .ok d := by
  unfold create_ppt
  have hall : ∀ t ∈ get_sorted_themes data,
      (((buildSlides data 1 []).2).lookup t).map (fun pos => (t, pos))
        = some ((fun t => (t, 1 + 2 * ((firstIdx t data).getD 0))) t) := by
    intro t ht
    have hmem : t ∈ data.map (fun r => r.theme) := (mem_get_sorted_themes data t).mp ht
    have hsome : (firstIdx t data).isSome = true := (firstIdx_isSome_iff t data).mpr hmem
    obtain ⟨j, hj⟩ := Option.isSome_iff_exists.mp hsome
    rw [lookup_firstQ, hj]
    simp [hj]
  have hm := mapM_option_eq_map
    (fun t => (((buildSlides data 1 []).2).lookup t).map (fun pos => (t, pos)))
    (fun t => (t, 1 + 2 * ((firstIdx t data).getD 0)))
    (get_sorted_themes data) hall
  simp only [create_ppt]
  rw [hm]
  exact ⟨_, rfl⟩

theorem forall₂_links_fst {data : List QuizRecord} {ts : List String}
    {links : List (String × Nat)}
    (h : List.Forall₂ (fun t tp =>
      (((buildSlides data 1 []).2).lookup t).map (fun pos => (t, pos)) = some tp) ts links) :
    links.map Prod.fst = ts := by
  induction h with
  | nil => rfl
  | cons hr hrest ih =>
    obtain ⟨pos, hpos, rfl⟩ := Option.map_eq_some'.mp hr
    simp [ih]

/-!
### Claim theorems for the deck builder
-/

/-- C10: for every input record list the index-link wiring never hits the
missing-first-question-slide failure: every theme of the distinct-theme
list has a recorded first-question slide, so the fatal KeyError branch of
`create_ppt` is unreachable and the deck is always produced. -/
theorem create_ppt_keyerror_unreachable (data : List QuizRecord) (out : String) :
    (∀ t ∈ get_sorted_themes data, (((buildSlides data 1 []).2).lookup t).isSome = true)
    ∧ ∃ d, create_ppt data out = .ok d := by
  refine ⟨?_, create_ppt_ok data out⟩
  intro t ht
  obtain ⟨j, hj⟩ := Option.isSome_iff_exists.mp
    ((firstIdx_isSome_iff t data).mpr ((mem_get_sorted_themes data t).mp ht))
  rw [lookup_firstQ, hj]
  rfl

/-- Witness for the C10 theorem at the specification's round-trip example. -/
theorem create_ppt_keyerror_unreachable_witness :
    (((buildSlides exPart 1 []).2).lookup "A").isSome = true
    ∧ ∃ d, create_ppt exPart "out" = .ok d :=
  ⟨(create_ppt_keyerror_unreachable exPart "out").1 "A" (by decide),
   (create_ppt_keyerror_unreachable exPart "out").2⟩

/-- C1: a deck built from a part with N records has exactly 2N+1 slides;
slide 0 is the index slide titled with the output identifier; and for
every i in 1..N, slide 2i-1 (the question slide of record i) and slide 2i
(the answer slide of record i) are both titled with record i's theme. -/
theorem deck_structure (data : List QuizRecord) (out : String) (d : Deck)
    (h : create_ppt data out = .ok d) :
    d.slides.length = 2 * data.length + 1
    ∧ d.slides[0]? = some (homeSlide out)
    ∧ ∀ i r, 1 ≤ i → i ≤ data.length → data[i - 1]? = some r →
        (d.slides[2 * i - 1]?).map Slide.title = some r.theme
        ∧ (d.slides[2 * i]?).map Slide.title = some r.theme := by
  obtain ⟨hs, -, -⟩ := create_ppt_parts h
  refine ⟨?_, ?_, ?_⟩
  · rw [hs]
    simp only [List.length_cons, flatMapQA_length]
  · rw [hs]; exact List.getElem?_cons_zero
  · intro i r h1 h2 hr
    obtain ⟨j, rfl⟩ : ∃ j, i = j + 1 := ⟨i - 1, by omega⟩
    have hj : data[j]? = some r := by simpa using hr
    have e1 : 2 * (j + 1) - 1 = 2 * j + 1 := by omega
    have e2 : 2 * (j + 1) = 2 * j + 1 + 1 := by omega
    constructor
    · rw [hs, e1, List.getElem?_cons_succ, flatMapQA_getElem_even, hj]; rfl
    · rw [hs, e2, List.getElem?_cons_succ, flatMapQA_getElem_odd, hj]; rfl

/-- Witness for the C1 theorem at the round-trip example deck. -/
theorem deck_structure_witness :
    create_ppt exPart "out" = .ok exDeck
    ∧ exDeck.slides.length = 2 * exPart.length + 1
    ∧ (exDeck.slides[2 * 1 - 1]?).map Slide.title = some exA1.theme := by
  have hd : create_ppt exPart "out" = .ok exDeck := rfl
  have h := deck_structure exPart "out" exDeck hd
  exact ⟨hd, h.1, (h.2.2 1 exA1 (by decide) (by decide) (by decide)).1⟩

/-- Counterexample to C3 as stated: the claimed question position
`1 + 2*(N-1) + 1` evaluates, for N = 1, to slide position 2, which holds
the answer slide of record 1, not its question slide. -/
theorem record_slide_positions_counterexample :
    create_ppt exPart "out" = .ok exDeck
    ∧ exDeck.slides[1 + 2 * (1 - 1) + 1]? = some (aSlide exA1)
    ∧ aSlide exA1 ≠ qSlide exA1 := by
  refine ⟨rfl, by decide, by decide⟩

/-- C3 (amended): with the index slide fixed at position 0, the Nth record
(1-indexed) occupies slide position 2*(N-1)+1 with its question slide and
2*(N-1)+2 with its answer slide (the claim's extra leading "1 +" double
counts the index slide). -/
theorem record_slide_positions (data : List QuizRecord) (out : String) (d : Deck)
    (N : Nat) (r : QuizRecord) (h : create_ppt data out = .ok d) (h1 : 1 ≤ N)
    (h2 : N ≤ data.length) (hr : data[N - 1]? = some r) :
    d.slides[0]? = some (homeSlide out)
    ∧ d.slides[2 * (N - 1) + 1]? = some (qSlide r)
    ∧ d.slides[2 * (N - 1) + 2]? = some (aSlide r) := by
  obtain ⟨hs, -, -⟩ := create_ppt_parts h
  obtain ⟨j, rfl⟩ : ∃ j, N = j + 1 := ⟨N - 1, by omega⟩
  have hj : data[j]? = some r := by simpa using hr
  have e1 : 2 * (j + 1 - 1) + 1 = 2 * j + 1 := by omega
  have e2 : 2 * (j + 1 - 1) + 2 = 2 * j + 1 + 1 := by omega
  refine ⟨by rw [hs]; exact List.getElem?_cons_zero, ?_, ?_⟩
  · rw [hs, e1, List.getElem?_cons_succ, flatMapQA_getElem_even, hj]; rfl
  · rw [hs, e2, List.getElem?_cons_succ, flatMapQA_getElem_odd, hj]; rfl

/-- Witness for the amended C3 theorem: record 2 of the example part
(`exA3`) has its question slide at position 2*(2-1)+1 = 3. -/
theorem record_slide_positions_witness :
    exDeck.slides[2 * (2 - 1) + 1]? = some (qSlide exA3) := by
  have hd : create_ppt exPart "out" = .ok exDeck := rfl
  exact (record_slide_positions exPart "out" exDeck 2 exA3 hd (by decide) (by decide)
    (by decide)).2.1

/-- C2: in every generated deck each non-index slide carries exactly one
home-button edge back to the index slide (and the index slide none); the
index slide has exactly one outgoing link per distinct theme, in sorted
theme order; and each link lands on the question slide of the first record
of its theme in the record order, never a later one. -/
theorem deck_navigation (data : List QuizRecord) (out : String) (d : Deck)
    (h : create_ppt data out = .ok d) :
    (∀ p, 1 ≤ p → p < d.slides.length → d.homeButtons.count p = 1)
    ∧ d.homeButtons.count 0 = 0
    ∧ (∀ p ∈ d.homeButtons, 1 ≤ p ∧ p < d.slides.length)
    ∧ d.indexLinks.map Prod.fst = get_sorted_themes data
    ∧ (d.indexLinks.map Prod.fst).Nodup
    ∧ List.Pairwise (fun a b => themeLe a b = true) (d.indexLinks.map Prod.fst)
    ∧ ∀ tp ∈ d.indexLinks, ∃ j r,
        tp.2 = 2 * j + 1
        ∧ data[j]? = some r ∧ r.theme = tp.1
        ∧ (∀ k, k < j → ∀ s, data[k]? = some s → s.theme ≠ tp.1)
        ∧ d.slides[tp.2]? = some (qSlide r) := by
  obtain ⟨hs, hb, hm⟩ := create_ppt_parts h
  have hf2 := mapM_option_forall₂ hm
  have hfst : d.indexLinks.map Prod.fst = get_sorted_themes data := forall₂_links_fst hf2
  refine ⟨?_, ?_, ?_, hfst, ?_, ?_, ?_⟩
  · intro p hp1 hp2
    rw [hb]
    refine List.count_eq_one_of_mem (List.Nodup.filter _ (List.nodup_range _)) ?_
    exact List.mem_filter.mpr ⟨List.mem_range.mpr hp2, by simp; omega⟩
  · rw [hb]
    refine List.count_eq_zero.mpr ?_
    intro hmem
    have := (List.mem_filter.mp hmem).2
    simp at this
  · intro p hp
    rw [hb] at hp
    have h1 := List.mem_range.mp (List.mem_filter.mp hp).1
    have h2 := (List.mem_filter.mp hp).2
    simp only [bne_iff_ne, ne_eq] at h2
    exact ⟨by omega, h1⟩
  · rw [hfst]; exact get_sorted_themes_nodup data
  · rw [hfst]; exact get_sorted_themes_sorted data
  · intro tp htp
    obtain ⟨t, ht, hft⟩ := forall₂_mem_right hf2 tp htp
    obtain ⟨pos, hpos, rfl⟩ := Option.map_eq_some'.mp hft
    rw [lookup_firstQ] at hpos
    obtain ⟨j, hj, hjpos⟩ := Option.map_eq_some'.mp hpos
    obtain ⟨⟨r, hrj, hrtheme⟩, hfirst⟩ := firstIdx_spec t data j hj
    refine ⟨j, r, by omega, hrj, hrtheme, hfirst, ?_⟩
    rw [hs]
    have e : pos = 2 * j + 1 := by omega
    simp only [e]
    rw [List.getElem?_cons_succ, flatMapQA_getElem_even, hrj]
    rfl

/-- Witness for the C2 theorem at the round-trip example deck. -/
theorem deck_navigation_witness :
    exDeck.homeButtons.count 3 = 1
    ∧ exDeck.indexLinks.map Prod.fst = get_sorted_themes exPart := by
  have hd : create_ppt exPart "out" = .ok exDeck := rfl
  have h := deck_navigation exPart "out" exDeck hd
  exact ⟨h.1 3 (by decide) (by decide), h.2.2.2.1⟩

/-- Witness for the C4 theorem at the specification's round-trip example:
sorting puts the Mystery-Box record last and keeps the two "A" records in
their original relative order. -/
theorem sortPart_stable_sort_witness :
    (sortPart exRaw).filter (fun r => r.theme == "A")
      = exRaw.filter (fun r => r.theme == "A")
    ∧ sortPart exRaw = exPart :=
  ⟨(sortPart_stable_sort exRaw).2.2.2 "A", by decide⟩

/-!
### Metadata extraction (season and week)
-/

/-- C8: extracting season and week from the page title succeeds exactly
when the title contains exactly two maximal digit runs, assigning the
first integer to season and the second to week; a title with zero or one
integer is a fatal error. -/
theorem season_week_extraction (t : String) :
    (∀ a b, extractSeasonWeek t = .ok (a, b) → findallInts t = [a, b])
    ∧ (∀ a b, findallInts t = [a, b] → extractSeasonWeek t = .ok (a, b))
    ∧ ((findallInts t).length ≤ 1 → extractSeasonWeek t = .error ()) := by
  refine ⟨?_, ?_, ?_⟩
  · intro a b h
    unfold extractSeasonWeek at h
    split at h
    · rename_i a2 b2 heq
      injection h with h2
      obtain ⟨rfl, rfl⟩ := Prod.mk.inj h2
      exact heq
    · exact absurd h (by simp)
  · intro a b h
    unfold extractSeasonWeek
    rw [h]
  · intro hlen
    unfold extractSeasonWeek
    rcases hf : findallInts t with - | ⟨a, - | ⟨b, l⟩⟩
    · rfl
    · rfl
    · rw [hf] at hlen
      simp at hlen

/-- Witness for the C8 theorem: the specification's example title yields
season 15 and week 7, and a single-integer title is a fatal error. -/
theorem season_week_extraction_witness :
    extractSeasonWeek "QNpt Season 15 Week 7" = .ok (15, 7)
    ∧ extractSeasonWeek "QNpt 15" = .error () :=
  ⟨(season_week_extraction "QNpt Season 15 Week 7").2.1 15 7 (by decide),
   (season_week_extraction "QNpt 15").2.2 (by decide)⟩

/-!
### Dataset Locator lemmas
-/

theorem getLast?_cons_or {α : Type} (a : α) (l : List α) :
    (a :: l).getLast? = (l.getLast?).or (some a) := by
  induction l generalizing a with
  | nil => rfl
  | cons b l2 ih =>
    rw [List.getLast?_cons_cons, ih b]
    cases h : l2.getLast? <;> simp [Option.or]

theorem findJfAux_spec (divs : List Div) : ∀ acc,
    findJfAux divs acc =
      match (firstMarkerMatch divs).or (((parsedPayloads divs).getLast?).or acc) with
      | some p => .ok p
      | none => .error () := by
  induction divs with
  | nil =>
    intro acc
    cases acc <;> rfl
  | cons d rest ih =>
    intro acc
    rcases hd : d.script with - | op
    · have hpp : parsedPayloads (d :: rest) = parsedPayloads rest := by
        simp [parsedPayloads, List.filterMap_cons, hd]
      have hfm : firstMarkerMatch (d :: rest) = firstMarkerMatch rest := by
        simp [firstMarkerMatch, hpp]
      simp only [findJfAux, hd, hfm, hpp]
      exact ih acc
    · rcases op with - | p
      · have hpp : parsedPayloads (d :: rest) = parsedPayloads rest := by
          simp [parsedPayloads, List.filterMap_cons, hd]
        have hfm : firstMarkerMatch (d :: rest) = firstMarkerMatch rest := by
          simp [firstMarkerMatch, hpp]
        simp only [findJfAux, hd, hfm, hpp]
        exact ih acc
      · have hpp : parsedPayloads (d :: rest) = p :: parsedPayloads rest := by
          simp [parsedPayloads, List.filterMap_cons, hd]
        have hgl : (parsedPayloads (d :: rest)).getLast?
            = ((parsedPayloads rest).getLast?).or (some p) := by
          rw [hpp, getLast?_cons_or]
        rcases ht : p.title with - | t
        · have hfm : firstMarkerMatch (d :: rest) = firstMarkerMatch rest := by
            rw [firstMarkerMatch, hpp, List.find?_cons_of_neg _ (by simp [ht])]
            rfl
          simp only [findJfAux, hd, ht, hfm, hgl]
          rw [ih (some p), Option.or_assoc]
          rfl
        · rcases hm : hasMarker t with - | -
          · have hfm : firstMarkerMatch (d :: rest) = firstMarkerMatch rest := by
              rw [firstMarkerMatch, hpp, List.find?_cons_of_neg _ (by simp [ht, hm])]
              rfl
            simp only [findJfAux, hd, ht, hm, hfm, hgl]
            rw [ih (some p), Option.or_assoc]
            rfl
          · have hfm : firstMarkerMatch (d :: rest) = some p := by
              rw [firstMarkerMatch, hpp, List.find?_cons_of_pos _ (by simp [ht, hm])]
            simp only [findJfAux, hd, ht, hm, hfm]
            rfl

/-- Counterexample to C9 as stated: with a single level-3 container and no
script tag, no payload ever parses; `extract_quiz_data` propagates the
UnboundLocalError (`.error`) rather than gracefully yielding the empty
output `.ok []`. -/
theorem locator_selection_counterexample :
    extract_quiz_data [exDivNoScript] = .error ()
    ∧ (Except.error () : Except Unit (List (List QuizRecord))) ≠ .ok [] :=
  ⟨rfl, by simp⟩

/-- C9 (amended): the locator returns the first decoded payload whose
title contains the host marker; when none matches, it falls back to the
last successfully decoded payload (reported as a non-fatal condition); and
when no payload decoded at all, the `return whole_json` line raises
UnboundLocalError, which propagates out of `extract_quiz_data` - that
page's processing crashes instead of yielding an empty result. -/
theorem locator_selection (divs : List Div) :
    (∀ p, firstMarkerMatch divs = some p → find_jf_game divs = .ok p)
    ∧ (firstMarkerMatch divs = none → ∀ p, (parsedPayloads divs).getLast? = some p →
        find_jf_game divs = .ok p)
    ∧ ((parsedPayloads divs).getLast? = none →
        find_jf_game divs = .error () ∧ extract_quiz_data divs = .error ()) := by
  refine ⟨?_, ?_, ?_⟩
  · intro p hp
    rw [find_jf_game, findJfAux_spec divs none, hp]
    rfl
  · intro hfm p hgl
    rw [find_jf_game, findJfAux_spec divs none, hfm, hgl]
    rfl
  · intro hgl
    have hempty : parsedPayloads divs = [] := by simpa using hgl
    have hfm : firstMarkerMatch divs = none := by
      rw [firstMarkerMatch, hempty]
      rfl
    have herr : find_jf_game divs = .error () := by
      rw [find_jf_game, findJfAux_spec divs none, hfm, hgl]
      rfl
    refine ⟨herr, ?_⟩
    rw [extract_quiz_data, herr]

/-- Witness for the C9 theorem: the marker payload is selected over an
earlier non-matching one, and with no matching title the last decoded
payload is returned. -/
theorem locator_selection_witness :
    find_jf_game [exDivNoScript, exDivPlain, exDivMarker]
      = .ok { falsy := false, title := some "Jogo 1 - José Figueiras", data := none }
    ∧ find_jf_game [exDivPlain] = .ok { falsy := false, title := some "nope", data := none } :=
  ⟨(locator_selection [exDivNoScript, exDivPlain, exDivMarker]).1 _ (by decide),
   (locator_selection [exDivPlain]).2.1 (by decide) _ (by decide)⟩

/-!
### Field Parser lemmas
-/

theorem findI_eq_none {row : List Node} (h : ∀ s, Node.i s ∉ row) : findI row = none := by
  induction row with
  | nil => rfl
  | cons n rest ih =>
    have hrest : ∀ s, Node.i s ∉ rest := fun s hs => h s (List.mem_cons_of_mem _ hs)
    cases n with
    | i s => exact absurd (List.mem_cons_self _ _) (h s)
    | text s => simpa [findI] using ih hrest
    | b s => simpa [findI] using ih hrest
    | br => simpa [findI] using ih hrest

theorem findI_append {pre post : List Node} {s : String} (h : ∀ u, Node.i u ∉ pre) :
    findI (pre ++ Node.i s :: post) = some s := by
  induction pre with
  | nil => rfl
  | cons n pre2 ih =>
    have h2 : ∀ u, Node.i u ∉ pre2 := fun u hu => h u (List.mem_cons_of_mem _ hu)
    cases n with
    | i u => exact absurd (List.mem_cons_self _ _) (h u)
    | text u => simpa [findI] using ih h2
    | b u => simpa [findI] using ih h2
    | br => simpa [findI] using ih h2

theorem extractAnswer_no_resposta {row : List Node} (h : Node.b "Resposta" ∉ row) :
    extractAnswer row = .ok "" := by
  induction row with
  | nil => rfl
  | cons n rest ih =>
    have h2 : Node.b "Resposta" ∉ rest := fun hh => h (List.mem_cons_of_mem _ hh)
    cases n with
    | b s =>
      have hs : ¬s = "Resposta" := by
        intro hh
        subst hh
        exact h (List.mem_cons_self _ _)
      simpa [extractAnswer, hs] using ih h2
    | text s => simpa [extractAnswer] using ih h2
    | i s => simpa [extractAnswer] using ih h2
    | br => simpa [extractAnswer] using ih h2

theorem extractAnswer_resposta {pre post : List Node} (h : Node.b "Resposta" ∉ pre) :
    extractAnswer (pre ++ Node.b "Resposta" :: post)
      = match findI post with
        | some t => .ok t
        | none => .error () := by
  induction pre with
  | nil => simp [extractAnswer]
  | cons n pre2 ih =>
    have h2 : Node.b "Resposta" ∉ pre2 := fun hh => h (List.mem_cons_of_mem _ hh)
    cases n with
    | b s =>
      have hs : ¬s = "Resposta" := by
        intro hh
        subst hh
        exact h (List.mem_cons_self _ _)
      simpa [extractAnswer, hs] using ih h2
    | text s => simpa [extractAnswer] using ih h2
    | i s => simpa [extractAnswer] using ih h2
    | br => simpa [extractAnswer] using ih h2

/-- Counterexample to C7 as stated: `rowResposta` passes the theme-line
match and carries a bold `Resposta` span with no italic span after it;
answer extraction raises an AttributeError (`None.get_text()`), so
question/answer extraction is not total. -/
theorem question_answer_extraction_counterexample :
    extractAnswer rowResposta = .error ()
    ∧ (processRow ⟨none, none⟩ rowResposta).2 = .crash :=
  ⟨rfl, rfl⟩

/-- C7 (amended): question extraction is total - the first italic span's
text, or the empty string when none exists; answer extraction yields the
empty string when no bold `Resposta` span exists and the text of the first
italic span after the first such bold span when one follows it, but raises
an error when a `Resposta` span exists with no italic span after it. -/
theorem question_answer_extraction (row : List Node) :
    ((∀ s, Node.i s ∉ row) → extractQuestion row = "")
    ∧ (∀ pre s post, row = pre ++ Node.i s :: post → (∀ u, Node.i u ∉ pre) →
        extractQuestion row = s)
    ∧ (Node.b "Resposta" ∉ row → extractAnswer row = .ok "")
    ∧ (∀ pre post, row = pre ++ Node.b "Resposta" :: post → Node.b "Resposta" ∉ pre →
        ((∀ u, Node.i u ∉ post) → extractAnswer row = .error ())
        ∧ (∀ mid s post2, post = mid ++ Node.i s :: post2 → (∀ u, Node.i u ∉ mid) →
            extractAnswer row = .ok s)) := by
  refine ⟨?_, ?_, ?_, ?_⟩
  · intro h
    unfold extractQuestion
    rw [findI_eq_none h]
  · intro pre s post hrow hpre
    subst hrow
    unfold extractQuestion
    rw [findI_append hpre]
  · exact extractAnswer_no_resposta
  · intro pre post hrow hpre
    subst hrow
    constructor
    · intro hno
      rw [extractAnswer_resposta hpre, findI_eq_none hno]
    · intro mid s post2 hpost hmid
      subst hpost
      rw [extractAnswer_resposta hpre, findI_append hmid]

/-- Witness for the C7 theorem on the well-formed fragment `rowGood`. -/
theorem question_answer_extraction_witness :
    extractQuestion rowGood = "Who?" ∧ extractAnswer rowGood = .ok "Napoleon" := by
  constructor
  · exact (question_answer_extraction rowGood).2.1
      [Node.b "Alice Silva - Team X", Node.br,
       Node.text "Parte 1 História (xT = 0.8, xP = 2.0)", Node.br] "Who?"
      [Node.br, Node.b "Resposta", Node.text ": ", Node.i "Napoleon", Node.br, Node.b "2"]
      (by decide) (by intro u; simp)
  · exact ((question_answer_extraction rowGood).2.2.2
      [Node.b "Alice Silva - Team X", Node.br,
       Node.text "Parte 1 História (xT = 0.8, xP = 2.0)", Node.br, Node.i "Who?", Node.br]
      [Node.text ": ", Node.i "Napoleon", Node.br, Node.b "2"]
      (by decide) (by decide)).2 [Node.text ": "] "Napoleon" [Node.br, Node.b "2"]
      (by decide) (by intro u; simp)

/-- Counterexample to C5 as stated: `rowBadFloat` has a theme line
matching the pattern with xT text `1..2`, which `float()` rejects with a
ValueError; the fragment is not silently discarded - the extraction
raises. -/
theorem malformed_fragment_discard_counterexample :
    (processRow ⟨none, none⟩ rowBadFloat).2 = .crash
    ∧ RowResult.crash ≠ RowResult.discard :=
  ⟨rfl, by decide⟩

/-- C5 (amended): a fragment with fewer than two segments, or whose theme
line does not match the pattern, is silently discarded - no record and no
error; but when the theme line matches and either captured numeric text is
rejected by `float()`, the parser raises a ValueError instead of
discarding the fragment. -/
theorem malformed_fragment_discard (env : RowEnv) (row : List Node) :
    ((splitSegs row).length < 2 → (processRow env row).2 = .discard)
    ∧ (∀ p0 p1 ps, splitSegs row = p0 :: p1 :: ps →
        matchTheme (pyStrip (renderSeg p1)) = none → (processRow env row).2 = .discard)
    ∧ (∀ p0 p1 ps g1 g2 g3, splitSegs row = p0 :: p1 :: ps →
        matchTheme (pyStrip (renderSeg p1)) = some (g1, g2, g3) →
        (pyFloatOk g2 = false ∨ pyFloatOk g3 = false) →
        (processRow env row).2 = .crash) := by
  refine ⟨?_, ?_, ?_⟩
  · intro hlen
    unfold processRow
    split
    · rename_i p0 p1 ps heq
      rw [heq] at hlen
      simp only [List.length_cons] at hlen
      omega
    · rfl
  · intro p0 p1 ps heq hmatch
    simp only [processRow, heq, hmatch]
  · intro p0 p1 ps g1 g2 g3 heq hmatch hbad
    rcases hbad with hg | hg
    · simp only [processRow, heq, hmatch, hg, Bool.false_and, Bool.false_eq_true, if_false]
    · simp only [processRow, heq, hmatch, hg, Bool.and_false, Bool.false_eq_true, if_false]

/-- Witness for the C5 theorem: a no-match fragment is discarded, and a
matched fragment with a malformed float crashes. -/
theorem malformed_fragment_discard_witness :
    (processRow ⟨none, none⟩ rowNoMatch).2 = .discard
    ∧ (processRow ⟨some "x", some "2"⟩ rowBadFloat).2 = .crash := by
  constructor
  · exact (malformed_fragment_discard ⟨none, none⟩ rowNoMatch).2.1
      [Node.text "x"] [Node.text "no pattern here"] [] (by decide) (by decide)
  · exact (malformed_fragment_discard ⟨some "x", some "2"⟩ rowBadFloat).2.2
      [Node.b "Alice - T"] [Node.text "Tema (xT = 1..2, xP = 3)"] [[Node.b "2"]]
      "Tema".toList "1..2".toList "3".toList (by decide) (by decide) (Or.inl (by decide))

/-- C6 evaluated at its failing inputs: a first fragment whose final
segment carries no bold span raises a NameError (the `points` binding was
never assigned), and after a fragment whose points text was `2`, a
fragment with no bold span in its final segment silently inherits the
stale value - its record's guessed flag is true, not false. -/
theorem guessed_stale_points :
    (processRow ⟨none, none⟩ rowNoPoints).2 = .crash
    ∧ (processRows ⟨none, none⟩ [rowWith2, rowNoPoints]).map
        (fun p => p.2.map (fun r => r.guessed)) = .ok [true, true] :=
  ⟨rfl, rfl⟩

end QuizScraper
